/-
Verification of `penzai/core/struct.py` (penzai's core struct abstraction).

This file gives a shallow embedding, in Lean 4, of the struct declaration
and tree-decomposition machinery of `penzai.core.struct`:

* the field classifier `is_pytree_node_field` (struct.py lines 426-438),
* the tree codec `Struct.tree_flatten_with_keys` / `Struct.tree_flatten` /
  `Struct.tree_unflatten` (lines 570-656),
* the mutable-init-proxy wrapper `replacement_init` (lines 356-373),
* the registration decorator `pytree_dataclass` (lines 74-375) together with
  `is_pytree_dataclass_type` (lines 50-63) and the instantiation guard
  `AbstractStructMetaclass.__call__` (lines 402-423).

Python dictionaries (instance `__dict__`s, `static_fields`, `metadata`) are
modelled as association lists with Python's dict-assignment semantics
(updating an existing key keeps its position, a new key is appended).
Python exceptions are modelled with `Option`/`Except`.
-/
import Mathlib

namespace PenzaiStruct

/-! ## Python dictionaries as association lists

Python dicts preserve insertion order; assigning to an existing key updates
the value in place, assigning to a fresh key appends it.  All dicts that
appear in `struct.py` have string keys. -/

/-- Lookup in a Python dict: `m.get(k)` / `m[k]`, `none` models `KeyError`
(or `AttributeError` when the dict is an instance `__dict__`). -/
def dictGet {α : Type} : List (String × α) → String → Option α
  | [], _ => none
  | kv :: rest, k => if kv.1 = k then some kv.2 else dictGet rest k

/-- Python dict assignment `m[k] = v`: update in place if the key exists,
append otherwise.  (Dicts built by dict operations never hold a duplicate
key, so updating the first occurrence is exact.) -/
def dictInsert {α : Type} : List (String × α) → String → α → List (String × α)
  | [], k, v => [(k, v)]
  | kv :: rest, k, v => if kv.1 = k then (k, v) :: rest else kv :: dictInsert rest k v

/-! ## Fields and the field classifier -/

/-- A `dataclasses.Field` declaration, restricted to the parts `struct.py`
reads: the field name and the per-field `metadata` mapping.  The only
metadata entry the code ever consults is `"pytree_node"`, whose value is
used as a boolean, so metadata values are modelled as `Bool`. -/
structure Field where
  name : String
  metadata : List (String × Bool)
deriving DecidableEq

/-- `field.metadata.get(key, default)`. -/
def metadataGet (md : List (String × Bool)) (key : String) (dflt : Bool) : Bool :=
  match dictGet md key with
  | some b => b
  | none => dflt

/-- struct.py lines 426-438: a field is a PyTree child by default, and is
static only when its metadata maps `"pytree_node"` to a falsy value:
`return field.metadata.get("pytree_node", True)`. -/
def is_pytree_node_field (field : Field) : Bool :=
  metadataGet field.metadata ("pytree_node") true

/-! ## Struct instances and the tree codec -/

/-- A JAX keypath key.  `getAttrKey name` models
`jax.tree_util.GetAttrKey(name)`; `customKey` models any other hashable
key an overriding `key_for_field` might produce. -/
inductive AttrKey where
  | getAttrKey (name : String)
  | customKey (idx : Nat)
deriving DecidableEq

/-- struct.py lines 557-568: the default `Struct.key_for_field`, which
returns `jax.tree_util.GetAttrKey(field_name)`. -/
def default_key_for_field (field_name : String) : AttrKey :=
  AttrKey.getAttrKey field_name

/-- struct.py lines 441-452: the auxiliary data produced by flattening.
`child_field_names` lists the non-static fields in serialization order and
`static_fields` maps each static field name to its value. -/
structure StructStaticMetadata (α : Type) where
  child_field_names : List String
  static_fields : List (String × α)
deriving DecidableEq

/-- An instance of a registered Struct type, as the codec sees it:
`fields` is `dataclasses.fields(type(self))`, `keyfn` is the instance's
`key_for_field` method (default or overridden), and `attrs` is the
instance `__dict__` holding the field values.  `α` is the type of
attribute values. -/
structure StructInst (α : Type) where
  fields : List Field
  keyfn : String → AttrKey
  attrs : List (String × α)

namespace StructInst

/-- `getattr(self, name)` on an instance; `none` models `AttributeError`.
(Field values of a fully constructed dataclass instance live in the
instance `__dict__`.) -/
def getattr {α : Type} (x : StructInst α) (name : String) : Option α :=
  dictGet x.attrs name

/-- The loop of struct.py lines 587-601, with the three accumulators
`child_field_names`, `children` and `static_fields` made explicit:

```
for field_ in dataclasses.fields(self):
  value = getattr(self, field_.name)
  if not is_pytree_node_field(field_):
    static_fields[field_.name] = value
  else:
    child_field_names.append(field_.name)
    children.append((self.key_for_field(field_.name), value))
```
-/
def tree_flatten_with_keys_go {α : Type} (x : StructInst α) :
    List Field → List String → List (AttrKey × α) → List (String × α) →
    Option (List (AttrKey × α) × StructStaticMetadata α)
  | [], names, children, statics => some (children, ⟨names, statics⟩)
  | f :: rest, names, children, statics =>
    match x.getattr f.name with
    | none => none
    | some value =>
      if is_pytree_node_field f then
        tree_flatten_with_keys_go x rest (names ++ [f.name])
          (children ++ [(x.keyfn f.name, value)]) statics
      else
        tree_flatten_with_keys_go x rest names children (dictInsert statics f.name value)

/-- struct.py lines 570-601: `Struct.tree_flatten_with_keys`, returning the
`(key, child)` pairs and the static metadata. -/
def tree_flatten_with_keys {α : Type} (x : StructInst α) :
    Option (List (AttrKey × α) × StructStaticMetadata α) :=
  tree_flatten_with_keys_go x x.fields [] [] []

/-- The loop of struct.py lines 617-628 (same as above but children carry
no keys). -/
def tree_flatten_go {α : Type} (x : StructInst α) :
    List Field → List String → List α → List (String × α) →
    Option (List α × StructStaticMetadata α)
  | [], names, children, statics => some (children, ⟨names, statics⟩)
  | f :: rest, names, children, statics =>
    match x.getattr f.name with
    | none => none
    | some value =>
      if is_pytree_node_field f then
        tree_flatten_go x rest (names ++ [f.name]) (children ++ [value]) statics
      else
        tree_flatten_go x rest names children (dictInsert statics f.name value)

/-- struct.py lines 603-628: `Struct.tree_flatten`. -/
def tree_flatten {α : Type} (x : StructInst α) :
    Option (List α × StructStaticMetadata α) :=
  tree_flatten_go x x.fields [] [] []

/-- Modelled from the spec: `dataclass_util.dataclass_from_attributes`
(module `penzai.core.dataclass_util` is not among the sources here).  The
spec describes it as "a reconstruction entry point that builds a new
instance purely from a full field-value mapping (bypassing custom
initializers)", so it produces the instance of the class (given by its
field list `clsFields` and its `key_for_field` method `clsKeyfn`) whose
instance `__dict__` is exactly the given mapping. -/
def from_attributes {α : Type} (clsFields : List Field) (clsKeyfn : String → AttrKey)
    (m : List (String × α)) : StructInst α :=
  { fields := clsFields, keyfn := clsKeyfn, attrs := m }

/-- struct.py lines 630-656: `Struct.tree_unflatten` as a classmethod of the
class described by `clsFields`/`clsKeyfn`:

```
attributes = dict(aux_data.static_fields)
assert len(children) == len(aux_data.child_field_names)
for name, child in zip(aux_data.child_field_names, children):
  attributes[name] = child
return cls.from_attributes(**attributes)
```

The failed length assertion is modelled by `none`.  (The leading
`isinstance(aux_data, StructStaticMetadata)` assertion always passes here
because `aux` is typed.) -/
def tree_unflatten {α : Type} (clsFields : List Field) (clsKeyfn : String → AttrKey)
    (aux : StructStaticMetadata α) (children : List α) : Option (StructInst α) :=
  if children.length = aux.child_field_names.length then
    let attributes :=
      (aux.child_field_names.zip children).foldl
        (fun m p => dictInsert m p.1 p.2) aux.static_fields
    some (from_attributes clsFields clsKeyfn attributes)
  else
    none

end StructInst

/-! ## The mutable construction proxy's wrapped initializer

struct.py lines 356-373.  When `pytree_dataclass` wraps a user-supplied
`__init__`, constructing the frozen class first builds an instance of the
mutable proxy subclass (running the user initializer on it), then copies
every declared dataclass field from the proxy onto the real instance with
`object.__setattr__`.

The proxy construction is abstracted by its observable outcome:
`proxyAttrs` is the proxy's instance `__dict__` after the user `__init__`
ran.  `classAttrs` models the class-level attributes visible through the
proxy's MRO (in particular, a dataclass field declared with a default
value keeps that default as a class attribute); `getattr(proxy, name)`
falls back to them when the instance `__dict__` lacks `name`.
`selfAttrs` is the real instance's `__dict__` (empty at construction). -/

/-- `InitError.uninitializedField n` models the `AttributeError` raised at
struct.py lines 366-370 (a field `n` "was not set during __init__"). -/
inductive InitError where
  | uninitializedField (name : String)
deriving DecidableEq

/-- `getattr(proxy, name)`: the proxy's instance `__dict__` first, then the
class-level attributes along its MRO. -/
def proxyGetattr {α : Type} (classAttrs proxyAttrs : List (String × α))
    (name : String) : Option α :=
  match dictGet proxyAttrs name with
  | some v => some v
  | none => dictGet classAttrs name

/-- The field-copying loop of struct.py lines 362-371:

```
for field_ in dataclasses.fields(cls):
  try:
    value_from_proxy = getattr(proxy, field_.name)
  except AttributeError as exc:
    raise AttributeError(f'A value for field "{field_.name}" was not set ...')
  object.__setattr__(self, field_.name, value_from_proxy)
```
-/
def replacement_init_go {α : Type} (classAttrs proxyAttrs : List (String × α)) :
    List Field → List (String × α) → Except InitError (List (String × α))
  | [], selfAttrs => Except.ok selfAttrs
  | f :: rest, selfAttrs =>
    match proxyGetattr classAttrs proxyAttrs f.name with
    | none => Except.error (InitError.uninitializedField f.name)
    | some v => replacement_init_go classAttrs proxyAttrs rest (dictInsert selfAttrs f.name v)

/-- struct.py lines 356-373: the wrapped `__init__` installed on the frozen
class, returning the real instance's `__dict__` after construction. -/
def replacement_init {α : Type} (clsFields : List Field)
    (classAttrs proxyAttrs selfAttrs : List (String × α)) :
    Except InitError (List (String × α)) :=
  replacement_init_go classAttrs proxyAttrs clsFields selfAttrs

/-! ## The class model: registration, guard, and proxy creation

Python classes are modelled as a single-inheritance chain rooted at
`object` (every class in `struct.py`'s machinery has such a chain).  A
class holds its own `__dict__`, restricted to the entries `struct.py`
reads or writes; attribute lookup on the class walks the chain (MRO). -/

/-- Identity of an `__init__` implementation.  Function identity matters:
line 222 compares with `is`.  `objectInit` is `object.__init__`;
`userInit tag` is a hand-written initializer; `generatedInit c` is the one
`dataclasses.dataclass` generated while registering class `c`;
`proxyWrappedInit c` is the `replacement_init` wrapper installed while
registering class `c`. -/
inductive InitImpl where
  | objectInit
  | userInit (tag : Nat)
  | generatedInit (clsName : String)
  | proxyWrappedInit (clsName : String)
deriving DecidableEq

/-- The dict stored under `__penzai_pytree_dataclass_info__` (struct.py
lines 235-243, 264-267 and 343-347).  `generated_init = none` models both
Python `None` and the key being absent: the key is written at lines
264-267 of every completed registration and the code only reads it from
completed registrations, and the proxy's info dict (which omits the key)
is never consulted for it. -/
structure PytreeInfo where
  has_implicitly_inherited_fields : Bool
  use_mutable_proxy_in_init : Bool
  is_init_proxy : Bool
  generated_init : Option InitImpl
deriving DecidableEq

/-- A class's own `__dict__`, restricted to what `struct.py` reads/writes:

* `initMethod`: the `__init__` entry, if the class declares one;
* `info`: the `__penzai_pytree_dataclass_info__` entry;
* `annots`: the class's own `__annotations__`, as field declarations, in
  declaration order (`inspect.get_annotations(cls)`);
* `dcFields`: the `__dataclass_fields__` entry once the class has been
  transformed by `dataclasses.dataclass`, in field order;
* `hasTreeFlattenWithKeys` / `hasTreeUnflatten`: whether the dict defines
  the two codec methods;
* `hasMutableInitProxyAttr`: whether `"_MutableInitProxy"` is in the dict. -/
structure ClassDict where
  initMethod : Option InitImpl
  info : Option PytreeInfo
  annots : List Field
  dcFields : Option (List Field)
  hasTreeFlattenWithKeys : Bool
  hasTreeUnflatten : Bool
  hasMutableInitProxyAttr : Bool
deriving DecidableEq

/-- A Python class: `object`, or a class with a base and its own dict. -/
inductive PyClass where
  | objectClass : PyClass
  | classObj (base : PyClass) (name : String) (dict : ClassDict) : PyClass
deriving DecidableEq

/-- struct.py lines 50-63: `is_pytree_dataclass_type` checks
`PYTREE_DATACLASS_INFO_ATTR in cls.__dict__` — the class's *own* dict, so
inheriting from a registered class does not count. -/
def is_pytree_dataclass_type : PyClass → Bool
  | PyClass.objectClass => false
  | PyClass.classObj _ _ d => d.info.isSome

/-- `cls.__init__`: MRO lookup, ending at `object.__init__`. -/
def mroInit : PyClass → InitImpl
  | PyClass.objectClass => InitImpl.objectInit
  | PyClass.classObj base _ d =>
    match d.initMethod with
    | some i => i
    | none => mroInit base

/-- `getattr(cls, PYTREE_DATACLASS_INFO_ATTR)` via the MRO (`none` models
`hasattr` returning `False`). -/
def mroInfo : PyClass → Option PytreeInfo
  | PyClass.objectClass => none
  | PyClass.classObj base _ d =>
    match d.info with
    | some i => some i
    | none => mroInfo base

/-- `cls.__dataclass_fields__` via the MRO: the field table of the nearest
dataclass-transformed class (`dataclasses.fields(cls)` reads this). -/
def dataclassFieldsOf : PyClass → Option (List Field)
  | PyClass.objectClass => none
  | PyClass.classObj base _ d =>
    match d.dcFields with
    | some fs => some fs
    | none => dataclassFieldsOf base

/-- `hasattr(cls, "tree_flatten_with_keys")`. -/
def mroHasTreeFlattenWithKeys : PyClass → Bool
  | PyClass.objectClass => false
  | PyClass.classObj base _ d => d.hasTreeFlattenWithKeys || mroHasTreeFlattenWithKeys base

/-- `hasattr(cls, "tree_unflatten")`. -/
def mroHasTreeUnflatten : PyClass → Bool
  | PyClass.objectClass => false
  | PyClass.classObj base _ d => d.hasTreeUnflatten || mroHasTreeUnflatten base

/-- struct.py lines 402-423: `AbstractStructMetaclass.__call__` either
raises `TypeError` ("Can't instantiate abstract Struct subclass") or
delegates to `super().__call__`, which runs `cls.__init__` (MRO-resolved)
on the fresh instance. -/
inductive CallOutcome where
  | abstractTypeError
  | delegateToInit (ini : InitImpl)
deriving DecidableEq

/-- The instantiation guard (struct.py lines 416-423). -/
def abstractStructMetaclass_call (cls : PyClass) : CallOutcome :=
  if is_pytree_dataclass_type cls then CallOutcome.delegateToInit (mroInit cls)
  else CallOutcome.abstractTypeError

/-- The field table `dataclasses.dataclass` computes for a class: the
inherited `__dataclass_fields__` dict updated with the class's own
annotated fields (re-annotating an inherited field updates it in place,
keeping its position; new fields are appended in declaration order). -/
def mergeFields (parentFields : List Field) (anns : List Field) : List Field :=
  (parentFields.map fun f => ((anns.find? fun a => a.name = f.name).getD f)) ++
    (anns.filter fun a => parentFields.all fun f => f.name ≠ a.name)

/-- The keyword options of `pytree_dataclass` that affect its control flow
(struct.py lines 74-87), with their Python defaults.  `repr`, `eq`,
`order`, `match_args` and `kw_only` only configure which convenience
methods `dataclasses.dataclass` generates and are not modelled. -/
structure RegOptions where
  has_implicitly_inherited_fields : Bool := false
  use_mutable_proxy_in_init : Bool := true
  overwrite_parent_init : Bool := false
  init : Bool := true
deriving DecidableEq

/-- The exceptions `pytree_dataclass` can raise, in source order:
`ValueError` at line 201, `PyTreeDataclassSafetyError` at lines 223, 277
and 295, `AttributeError` at line 312, `ValueError` at line 324. -/
inductive RegError where
  | alreadyRegistered
  | unsafeInitOverwrite
  | redundantInheritOptIn
  | fieldOrderMismatch (explicitNames actualNames : List String)
  | missingCodec
  | proxyAttrAlreadyDefined
deriving DecidableEq

/-- struct.py lines 210-220: the `__init__` that would be "safe to
overwrite" — the `generated_init` recorded by the nearest registered class
in the MRO, defaulting to `object.__init__` when that record is `None` or
when no class in the MRO is registered. -/
def consultedGeneratedInit (cls : PyClass) : InitImpl :=
  match mroInfo cls with
  | some inf => inf.generated_init.getD InitImpl.objectInit
  | none => InitImpl.objectInit

/-- The initializers recorded as dataclass-generated by completed
registrations anywhere in the chain (used to state claim C4 as written:
"generated by a previous `pytree_dataclass` registration of a parent
class"). -/
def ancestorRecordedInits : PyClass → List InitImpl
  | PyClass.objectClass => []
  | PyClass.classObj base _ d =>
    (match d.info with
     | some i =>
       match i.generated_init with
       | some g => [g]
       | none => []
     | none => []) ++ ancestorRecordedInits base

/-- struct.py lines 329-352: the mutable proxy class created while
registering `cls` (named `cls.__name__ + "._MutableInitProxy"`).  Its dict
rebinds `__setattr__`/`__hash__` (not modelled), holds the user `__init__`
verbatim, an info dict whose only meaningful entry is
`is_init_proxy=True`, and `_MutableInitProxy = None` (so the attribute IS
in its dict). -/
def mkMutableInitProxy (cls : PyClass) (clsName : String)
    (original_init : InitImpl) : PyClass :=
  PyClass.classObj cls (clsName ++ ("._MutableInitProxy"))
    { initMethod := some original_init
      info := some
        { has_implicitly_inherited_fields := false
          use_mutable_proxy_in_init := false
          is_init_proxy := true
          generated_init := none }
      annots := []
      dcFields := none
      hasTreeFlattenWithKeys := false
      hasTreeUnflatten := false
      hasMutableInitProxyAttr := true }

/-- struct.py lines 308-375: the tail of `pytree_dataclass` after the
field-declaration consistency checks — the codec-method check, JAX
registration (an external registry write with no effect on the class
object, not modelled), and the optional mutable-proxy installation
(storing the proxy under `_MutableInitProxy` and replacing `__init__`
with `replacement_init`). -/
def pytree_dataclass_finish (opts : RegOptions) (base : PyClass) (name : String)
    (d2 : ClassDict) (original_init : Option InitImpl) :
    Except (RegError × PyClass) PyClass :=
  let cls2 := PyClass.classObj base name d2
  if !(mroHasTreeFlattenWithKeys cls2 && mroHasTreeUnflatten cls2) then
    Except.error (RegError.missingCodec, cls2)
  else if opts.use_mutable_proxy_in_init && original_init.isSome then
    if d2.hasMutableInitProxyAttr then
      Except.error (RegError.proxyAttrAlreadyDefined, cls2)
    else
      Except.ok (PyClass.classObj base name
        { d2 with
          hasMutableInitProxyAttr := true
          initMethod := some (InitImpl.proxyWrappedInit name) })
  else
    Except.ok cls2

/-- struct.py lines 74-375: the `pytree_dataclass` decorator applied to the
class `PyClass.classObj base name d`.  The class object is mutated in
place, so an error carries the class state at the moment of the raise.

Step by step, mirroring the source:
* line 200: `ValueError` if the info attribute is already in the own dict;
* lines 204-231: the unsafe-`__init__`-overwrite check, comparing the
  inherited `cls.__init__` against `consultedGeneratedInit` (which folds
  lines 210-220, including the `hasattr` fallback to `object.__init__`);
* lines 235-243: the info attribute is installed (before any later check);
* lines 249-260: `dataclasses.dataclass(frozen=True)`: computes the field
  table and, when `init` is true and the class has no own `__init__`,
  installs a generated `__init__` (frozen-ness itself only affects
  instance mutation, not registration);
* lines 264-267: records that generated `__init__` (the class's current
  `cls.__init__`, which under the guard condition is exactly
  `generatedInit name`) in the info dict, else records `None`;
* lines 269-306: field-declaration consistency: with the opt-in, the set
  difference `actual - explicit` must be non-empty; without it, the own
  annotation names filtered to actual field names must equal the actual
  field names;
* lines 308-375: `pytree_dataclass_finish`. -/
def pytree_dataclass (opts : RegOptions) (base : PyClass) (name : String)
    (d : ClassDict) : Except (RegError × PyClass) PyClass :=
  let cls0 := PyClass.classObj base name d
  if d.info.isSome then Except.error (RegError.alreadyRegistered, cls0)
  else
    let original_init := d.initMethod
    if opts.init ∧ original_init = none ∧ opts.overwrite_parent_init = false ∧
        mroInit cls0 ≠ consultedGeneratedInit cls0 then
      Except.error (RegError.unsafeInitOverwrite, cls0)
    else
      let actual_fields := mergeFields ((dataclassFieldsOf base).getD []) d.annots
      let genNow := opts.init ∧ original_init = none
      let d2 : ClassDict :=
        { d with
          info := some
            { has_implicitly_inherited_fields := opts.has_implicitly_inherited_fields
              use_mutable_proxy_in_init := opts.use_mutable_proxy_in_init
              is_init_proxy := false
              generated_init := if genNow then some (InitImpl.generatedInit name) else none }
          dcFields := some actual_fields
          initMethod := if genNow then some (InitImpl.generatedInit name) else d.initMethod }
      let cls2 := PyClass.classObj base name d2
      let explicit_annotation_names := d.annots.map fun f => f.name
      let actual_field_names := actual_fields.map fun f => f.name
      if opts.has_implicitly_inherited_fields then
        if actual_field_names.all (fun n => explicit_annotation_names.contains n) then
          Except.error (RegError.redundantInheritOptIn, cls2)
        else
          pytree_dataclass_finish opts base name d2 original_init
      else
        let explicit_field_names :=
          explicit_annotation_names.filter fun n => actual_field_names.contains n
        if explicit_field_names ≠ actual_field_names then
          Except.error
            (RegError.fieldOrderMismatch explicit_field_names actual_field_names, cls2)
        else
          pytree_dataclass_finish opts base name d2 original_init

/-- The `penzai.Struct` base class itself: defines the three codec methods,
has no fields, no own `__init__`, and is not itself registered (it is
abstract). -/
def structBase : PyClass :=
  PyClass.classObj PyClass.objectClass ("Struct")
    { initMethod := none
      info := none
      annots := []
      dcFields := none
      hasTreeFlattenWithKeys := true
      hasTreeUnflatten := true
      hasMutableInitProxyAttr := false }

/-- Decidable equality for `Except`, so concrete runs of `pytree_dataclass`
can be checked by `decide`. -/
instance exceptDecEq {ε α : Type} [DecidableEq ε] [DecidableEq α] :
    DecidableEq (Except ε α) := fun x y =>
  match x, y with
  | Except.ok a, Except.ok b =>
    if h : a = b then Decidable.isTrue (by rw [h])
    else Decidable.isFalse (by intro hc; cases hc; exact h rfl)
  | Except.error a, Except.error b =>
    if h : a = b then Decidable.isTrue (by rw [h])
    else Decidable.isFalse (by intro hc; cases hc; exact h rfl)
  | Except.ok _, Except.error _ => Decidable.isFalse (by intro hc; cases hc)
  | Except.error _, Except.ok _ => Decidable.isFalse (by intro hc; cases hc)

/-! ## Concrete classes and instances used to instantiate the theorems -/

/-- A raw class declaration: one child field `a`, no custom `__init__`. -/
def gDict : ClassDict :=
  { initMethod := none, info := none, annots := [⟨("a"), []⟩], dcFields := none
    hasTreeFlattenWithKeys := false, hasTreeUnflatten := false
    hasMutableInitProxyAttr := false }

/-- `G`: the result of `@pytree_dataclass` (default options) on a direct
`Struct` subclass declaring the single field `a`. -/
def exG : PyClass :=
  (pytree_dataclass {} structBase ("G") gDict).toOption.getD PyClass.objectClass

/-- A raw class declaration with no own annotations and no own `__init__`. -/
def emptyDict : ClassDict :=
  { initMethod := none, info := none, annots := [], dcFields := none
    hasTreeFlattenWithKeys := false, hasTreeUnflatten := false
    hasMutableInitProxyAttr := false }

/-- `P`: a subclass of `G` registered with `init=False` and
`has_implicitly_inherited_fields=True` (so it inherits both `G`'s field
`a` and `G`'s generated `__init__`, and records no generated init of its
own). -/
def exP : PyClass :=
  (pytree_dataclass { init := false, has_implicitly_inherited_fields := true }
      exG ("P") emptyDict).toOption.getD PyClass.objectClass

/-- A raw class declaration adding a field `b` (without re-listing
inherited fields). -/
def bDict : ClassDict :=
  { initMethod := none, info := none, annots := [⟨("b"), []⟩], dcFields := none
    hasTreeFlattenWithKeys := false, hasTreeUnflatten := false
    hasMutableInitProxyAttr := false }

/-- A concrete `Tagged{value: child, tag: static}` instance with
`value = 1`, `tag = 7` (the spec's second scenario). -/
def taggedInst : StructInst Nat :=
  { fields := [⟨("value"), []⟩, ⟨("tag"), [(("pytree_node"), false)]⟩]
    keyfn := default_key_for_field
    attrs := [(("value"), 1), (("tag"), 7)] }

/-- The error component of a registration outcome, if any. -/
def regResultError : Except (RegError × PyClass) PyClass → Option (RegError × PyClass)
  | Except.error ec => some ec
  | Except.ok _ => none

/-- The class's own dict (for `object`, an empty stand-in). -/
def dictOf : PyClass → ClassDict
  | PyClass.objectClass => emptyDict
  | PyClass.classObj _ _ d => d

/-- The state of the class `B` (a subclass of `exG` adding field `b`
without re-listing `a`) at the moment its registration raises the
field-order mismatch error. -/
def exBfail : PyClass :=
  ((regResultError (pytree_dataclass {} exG ("B") bDict)).getD
    (RegError.alreadyRegistered, PyClass.objectClass)).2

/-! ## Lemmas about the dictionary model -/

theorem dictGet_dictInsert {α : Type} (m : List (String × α)) (k : String) (v : α)
    (j : String) :
    dictGet (dictInsert m k v) j = if j = k then some v else dictGet m j := by
  induction m with
  | nil =>
    simp only [dictInsert, dictGet]
    by_cases h : j = k
    · subst h; simp
    · rw [if_neg (fun hh => h hh.symm), if_neg h]
  | cons kv rest ih =>
    by_cases h1 : kv.1 = k
    · simp only [dictInsert, if_pos h1, dictGet]
      by_cases h2 : j = k
      · subst h2; simp [h1]
      · rw [if_neg (fun hh => h2 hh.symm), if_neg h2, if_neg (h1 ▸ fun hh => h2 hh.symm)]
    · simp only [dictInsert, if_neg h1, dictGet]
      by_cases h3 : kv.1 = j
      · have h4 : j ≠ k := fun hh => h1 (h3.trans hh)
        rw [if_pos h3, if_neg h4, if_pos h3]
      · rw [if_neg h3, if_neg h3, ih]

theorem mem_dictInsert {α : Type} {m : List (String × α)} {k : String} {v : α}
    {p : String × α} (h : p ∈ dictInsert m k v) : p ∈ m ∨ p = (k, v) := by
  induction m with
  | nil =>
    rw [dictInsert] at h
    exact Or.inr (List.mem_singleton.mp h)
  | cons kv rest ih =>
    by_cases h1 : kv.1 = k
    · rw [dictInsert, if_pos h1] at h
      rcases List.mem_cons.mp h with h2 | h2
      · exact Or.inr h2
      · exact Or.inl (List.mem_cons_of_mem _ h2)
    · rw [dictInsert, if_neg h1] at h
      rcases List.mem_cons.mp h with h2 | h2
      · exact Or.inl (h2 ▸ List.mem_cons_self _ _)
      · rcases ih h2 with h3 | h3
        · exact Or.inl (List.mem_cons_of_mem _ h3)
        · exact Or.inr h3

theorem dictGet_mem {α : Type} {m : List (String × α)} {k : String} {v : α}
    (h : dictGet m k = some v) : (k, v) ∈ m := by
  induction m with
  | nil => simp [dictGet] at h
  | cons kv rest ih =>
    by_cases h1 : kv.1 = k
    · rw [dictGet, if_pos h1] at h
      have : (k, v) = kv := by
        cases kv with
        | mk a b => cases h1; cases Option.some.inj h; rfl
      exact this ▸ List.mem_cons_self _ _
    · rw [dictGet, if_neg h1] at h
      exact List.mem_cons_of_mem _ (ih h)

theorem dictInsert_of_dictGet_none {α : Type} {m : List (String × α)} {k : String}
    (h : dictGet m k = none) (v : α) : dictInsert m k v = m ++ [(k, v)] := by
  induction m with
  | nil => rfl
  | cons kv rest ih =>
    have h1 : kv.1 ≠ k := by
      intro hh
      rw [dictGet, if_pos hh] at h
      exact Option.noConfusion h
    rw [dictGet, if_neg h1] at h
    rw [dictInsert, if_neg h1, ih h, List.cons_append]

theorem mem_foldl_dictInsert {α : Type} (ps : List (String × α)) :
    ∀ (m0 : List (String × α)) (p : String × α),
      p ∈ ps.foldl (fun m q => dictInsert m q.1 q.2) m0 → p ∈ m0 ∨ p ∈ ps := by
  induction ps with
  | nil => intro m0 p h; exact Or.inl h
  | cons q ps ih =>
    intro m0 p h
    rcases ih _ _ h with h1 | h1
    · rcases mem_dictInsert h1 with h2 | h2
      · exact Or.inl h2
      · exact Or.inr (h2 ▸ List.mem_cons_self _ _)
    · exact Or.inr (List.mem_cons_of_mem _ h1)

theorem dictGet_foldl_isSome {α : Type} (ps : List (String × α)) :
    ∀ (m0 : List (String × α)) (k : String),
      ((dictGet m0 k).isSome ∨ k ∈ ps.map fun p => p.1) →
      (dictGet (ps.foldl (fun m q => dictInsert m q.1 q.2) m0) k).isSome := by
  induction ps with
  | nil =>
    intro m0 k h
    rcases h with h | h
    · exact h
    · simp at h
  | cons q ps ih =>
    intro m0 k h
    apply ih
    rcases h with h | h
    · left; rw [dictGet_dictInsert]
      by_cases h2 : k = q.1
      · rw [if_pos h2]; rfl
      · rw [if_neg h2]; exact h
    · rw [List.map_cons] at h
      rcases List.mem_cons.mp h with h2 | h2
      · left; rw [dictGet_dictInsert, if_pos h2]; rfl
      · right; exact h2

/-! ## Lemmas about the flatten loops -/

namespace StructInst

theorem tree_flatten_with_keys_go_nil {α : Type} (x : StructInst α)
    (names : List String) (children : List (AttrKey × α)) (statics : List (String × α)) :
    tree_flatten_with_keys_go x [] names children statics =
      some (children, ⟨names, statics⟩) := rfl

theorem tree_flatten_with_keys_go_cons {α : Type} (x : StructInst α) (f : Field)
    (rest : List Field) (names : List String) (children : List (AttrKey × α))
    (statics : List (String × α)) :
    tree_flatten_with_keys_go x (f :: rest) names children statics =
      match x.getattr f.name with
      | none => none
      | some value =>
        if is_pytree_node_field f then
          tree_flatten_with_keys_go x rest (names ++ [f.name])
            (children ++ [(x.keyfn f.name, value)]) statics
        else
          tree_flatten_with_keys_go x rest names children
            (dictInsert statics f.name value) := rfl

theorem tree_flatten_with_keys_go_names {α : Type} (x : StructInst α) (fs : List Field) :
    ∀ (names : List String) (children : List (AttrKey × α)) (statics : List (String × α))
      (cs : List (AttrKey × α)) (m : StructStaticMetadata α),
      tree_flatten_with_keys_go x fs names children statics = some (cs, m) →
      m.child_field_names =
        names ++ (fs.filter fun f => is_pytree_node_field f).map fun f => f.name := by
  induction fs with
  | nil =>
    intro names children statics cs m h
    rw [tree_flatten_with_keys_go_nil] at h
    cases Option.some.inj h
    simp
  | cons f rest ih =>
    intro names children statics cs m h
    rw [tree_flatten_with_keys_go_cons] at h
    split at h
    · exact Option.noConfusion h
    · split at h
      · rename_i hc
        rw [ih _ _ _ _ _ h]
        simp [List.filter_cons, hc]
      · rename_i hc
        rw [ih _ _ _ _ _ h]
        simp [List.filter_cons, hc]

theorem tree_flatten_with_keys_go_zip {α : Type} (x : StructInst α) (fs : List Field) :
    ∀ (names : List String) (children : List (AttrKey × α)) (statics : List (String × α))
      (cs : List (AttrKey × α)) (m : StructStaticMetadata α),
      tree_flatten_with_keys_go x fs names children statics = some (cs, m) →
      names.length = children.length →
      (∀ q ∈ names.zip children, x.getattr q.1 = some q.2.2) →
      m.child_field_names.length = cs.length ∧
        ∀ q ∈ m.child_field_names.zip cs, x.getattr q.1 = some q.2.2 := by
  induction fs with
  | nil =>
    intro names children statics cs m h hlen hzip
    rw [tree_flatten_with_keys_go_nil] at h
    cases Option.some.inj h
    exact ⟨hlen, hzip⟩
  | cons f rest ih =>
    intro names children statics cs m h hlen hzip
    rw [tree_flatten_with_keys_go_cons] at h
    split at h
    · exact Option.noConfusion h
    · rename_i value hv
      split at h
      · apply ih _ _ _ _ _ h
        · simp [hlen]
        · intro q hq
          rw [List.zip_append (by simpa using hlen)] at hq
          rcases List.mem_append.mp hq with h1 | h1
          · exact hzip _ h1
          · rcases List.mem_singleton.mp (by simpa using h1) with h2
            simp [h2, hv]
      · exact ih _ _ _ _ _ h hlen hzip

theorem tree_flatten_with_keys_go_statics {α : Type} (x : StructInst α) (fs : List Field) :
    ∀ (names : List String) (children : List (AttrKey × α)) (statics : List (String × α))
      (cs : List (AttrKey × α)) (m : StructStaticMetadata α),
      tree_flatten_with_keys_go x fs names children statics = some (cs, m) →
      (∀ p ∈ statics, x.getattr p.1 = some p.2) →
      ∀ p ∈ m.static_fields, x.getattr p.1 = some p.2 := by
  induction fs with
  | nil =>
    intro names children statics cs m h hst
    rw [tree_flatten_with_keys_go_nil] at h
    cases Option.some.inj h
    exact hst
  | cons f rest ih =>
    intro names children statics cs m h hst
    rw [tree_flatten_with_keys_go_cons] at h
    split at h
    · exact Option.noConfusion h
    · rename_i value hv
      split at h
      · exact ih _ _ _ _ _ h hst
      · apply ih _ _ _ _ _ h
        intro p hp
        rcases mem_dictInsert hp with h1 | h1
        · exact hst _ h1
        · rw [h1]; exact hv

theorem tree_flatten_with_keys_go_mono {α : Type} (x : StructInst α) (fs : List Field) :
    ∀ (names : List String) (children : List (AttrKey × α)) (statics : List (String × α))
      (cs : List (AttrKey × α)) (m : StructStaticMetadata α),
      tree_flatten_with_keys_go x fs names children statics = some (cs, m) →
      (∀ k, k ∈ names → k ∈ m.child_field_names) ∧
        (∀ k, (dictGet statics k).isSome → (dictGet m.static_fields k).isSome) := by
  induction fs with
  | nil =>
    intro names children statics cs m h
    rw [tree_flatten_with_keys_go_nil] at h
    cases Option.some.inj h
    exact ⟨fun k hk => hk, fun k hk => hk⟩
  | cons f rest ih =>
    intro names children statics cs m h
    rw [tree_flatten_with_keys_go_cons] at h
    split at h
    · exact Option.noConfusion h
    · rename_i value hv
      split at h
      · refine ⟨fun k hk => (ih _ _ _ _ _ h).1 k ?_, (ih _ _ _ _ _ h).2⟩
        exact List.mem_append.mpr (Or.inl hk)
      · refine ⟨(ih _ _ _ _ _ h).1, fun k hk => (ih _ _ _ _ _ h).2 k ?_⟩
        rw [dictGet_dictInsert]
        by_cases h2 : k = f.name
        · rw [if_pos h2]; rfl
        · rw [if_neg h2]; exact hk

theorem tree_flatten_with_keys_go_cover {α : Type} (x : StructInst α) (fs : List Field) :
    ∀ (names : List String) (children : List (AttrKey × α)) (statics : List (String × α))
      (cs : List (AttrKey × α)) (m : StructStaticMetadata α),
      tree_flatten_with_keys_go x fs names children statics = some (cs, m) →
      ∀ f ∈ fs,
        (is_pytree_node_field f = true → f.name ∈ m.child_field_names) ∧
          (is_pytree_node_field f = false → (dictGet m.static_fields f.name).isSome) := by
  induction fs with
  | nil => intro names children statics cs m h f hf; exact absurd hf (List.not_mem_nil _)
  | cons g rest ih =>
    intro names children statics cs m h f hf
    rw [tree_flatten_with_keys_go_cons] at h
    split at h
    · exact Option.noConfusion h
    · rename_i value hv
      split at h
      · rename_i hc
        rcases List.mem_cons.mp hf with h1 | h1
        · subst h1
          constructor
          · intro _
            exact (tree_flatten_with_keys_go_mono x rest _ _ _ _ _ h).1 f.name
              (List.mem_append.mpr (Or.inr (List.mem_singleton.mpr rfl)))
          · intro hcf
            rw [hc] at hcf
            exact Bool.noConfusion hcf
        · exact ih _ _ _ _ _ h f h1
      · rename_i hc
        rcases List.mem_cons.mp hf with h1 | h1
        · subst h1
          constructor
          · intro hcf
            exact absurd hcf hc
          · intro _
            apply (tree_flatten_with_keys_go_mono x rest _ _ _ _ _ h).2 f.name
            rw [dictGet_dictInsert, if_pos rfl]
            rfl
        · exact ih _ _ _ _ _ h f h1

theorem tree_flatten_with_keys_go_static_keys {α : Type} (x : StructInst α)
    (fs : List Field) :
    ∀ (names : List String) (children : List (AttrKey × α)) (statics : List (String × α))
      (cs : List (AttrKey × α)) (m : StructStaticMetadata α),
      tree_flatten_with_keys_go x fs names children statics = some (cs, m) →
      (∀ f ∈ fs, is_pytree_node_field f = false → dictGet statics f.name = none) →
      (fs.map fun f => f.name).Nodup →
      m.static_fields.map (fun p => p.1) =
        statics.map (fun p => p.1) ++
          ((fs.filter fun f => !is_pytree_node_field f).map fun f => f.name) := by
  induction fs with
  | nil =>
    intro names children statics cs m h _ _
    rw [tree_flatten_with_keys_go_nil] at h
    cases Option.some.inj h
    simp
  | cons f rest ih =>
    intro names children statics cs m h hfresh hnodup
    rw [tree_flatten_with_keys_go_cons] at h
    split at h
    · exact Option.noConfusion h
    · rename_i value hv
      rw [List.map_cons, List.nodup_cons] at hnodup
      split at h
      · rename_i hc
        rw [ih _ _ _ _ _ h (fun g hg => hfresh g (List.mem_cons_of_mem _ hg)) hnodup.2]
        simp [List.filter_cons, hc]
      · rename_i hc
        have hc' : is_pytree_node_field f = false := by
          cases hb : is_pytree_node_field f
          · rfl
          · exact absurd hb hc
        have hnone : dictGet statics f.name = none :=
          hfresh f (List.mem_cons_self _ _) hc'
        have hfresh' : ∀ g ∈ rest, is_pytree_node_field g = false →
            dictGet (dictInsert statics f.name value) g.name = none := by
          intro g hg hgc
          rw [dictGet_dictInsert]
          have hne : g.name ≠ f.name := by
            intro hh
            exact hnodup.1 (hh ▸ List.mem_map_of_mem (fun f => f.name) hg)
          rw [if_neg hne]
          exact hfresh g (List.mem_cons_of_mem _ hg) hgc
        rw [ih _ _ _ _ _ h hfresh' hnodup.2, dictInsert_of_dictGet_none hnone]
        simp [List.filter_cons, hc']

theorem tree_flatten_go_cons {α : Type} (x : StructInst α) (f : Field)
    (rest : List Field) (names : List String) (children : List α)
    (statics : List (String × α)) :
    tree_flatten_go x (f :: rest) names children statics =
      match x.getattr f.name with
      | none => none
      | some value =>
        if is_pytree_node_field f then
          tree_flatten_go x rest (names ++ [f.name]) (children ++ [value]) statics
        else
          tree_flatten_go x rest names children (dictInsert statics f.name value) := rfl

theorem tree_flatten_go_eq_with_keys {α : Type} (x : StructInst α) (fs : List Field) :
    ∀ (names : List String) (ckv : List (AttrKey × α)) (statics : List (String × α)),
      tree_flatten_go x fs names (ckv.map fun p => p.2) statics =
        (tree_flatten_with_keys_go x fs names ckv statics).map
          (fun r => (r.1.map fun p => p.2, r.2)) := by
  induction fs with
  | nil => intro names ckv statics; rfl
  | cons f rest ih =>
    intro names ckv statics
    rw [tree_flatten_go_cons, tree_flatten_with_keys_go_cons]
    cases hv : x.getattr f.name with
    | none => rfl
    | some value =>
      dsimp only
      by_cases hc : is_pytree_node_field f
      · rw [if_pos hc, if_pos hc]
        have h2 := ih (names ++ [f.name]) (ckv ++ [(x.keyfn f.name, value)]) statics
        rw [List.map_append] at h2
        exact h2
      · rw [if_neg hc, if_neg hc]
        exact ih names ckv (dictInsert statics f.name value)

/-- `tree_flatten` is `tree_flatten_with_keys` with the keys stripped from
the children (struct.py lines 603-628 vs 570-601). -/
theorem tree_flatten_eq_map_with_keys {α : Type} (x : StructInst α) :
    tree_flatten x =
      (tree_flatten_with_keys x).map (fun r => (r.1.map fun p => p.2, r.2)) := by
  have h := tree_flatten_go_eq_with_keys x x.fields [] [] []
  rw [List.map_nil] at h
  exact h

end StructInst

/-! ## Lemmas about the wrapped initializer -/

theorem replacement_init_go_nil {α : Type} (ca pa s : List (String × α)) :
    replacement_init_go ca pa [] s = Except.ok s := rfl

theorem replacement_init_go_cons {α : Type} (ca pa : List (String × α)) (f : Field)
    (rest : List Field) (s : List (String × α)) :
    replacement_init_go ca pa (f :: rest) s =
      match proxyGetattr ca pa f.name with
      | none => Except.error (InitError.uninitializedField f.name)
      | some v => replacement_init_go ca pa rest (dictInsert s f.name v) := rfl

theorem replacement_init_go_ok_char {α : Type} (ca pa : List (String × α))
    (fs : List Field) :
    ∀ (s m : List (String × α)), replacement_init_go ca pa fs s = Except.ok m →
      ∀ k, dictGet m k =
        if k ∈ fs.map (fun f => f.name) then proxyGetattr ca pa k else dictGet s k := by
  induction fs with
  | nil =>
    intro s m h k
    cases h
    simp
  | cons f rest ih =>
    intro s m h k
    rw [replacement_init_go_cons] at h
    split at h
    · exact Except.noConfusion h
    · rename_i v hv
      have h2 := ih _ _ h k
      rw [List.map_cons]
      by_cases h3 : k ∈ rest.map fun f => f.name
      · rw [h2, if_pos h3, if_pos (List.mem_cons_of_mem _ h3)]
      · by_cases h4 : k = f.name
        · rw [h2, if_neg h3, dictGet_dictInsert, if_pos h4,
            if_pos (List.mem_cons.mpr (Or.inl h4)), h4, hv]
        · rw [h2, if_neg h3, dictGet_dictInsert, if_neg h4,
            if_neg (fun hh => (List.mem_cons.mp hh).elim h4 h3)]

theorem replacement_init_go_ok_of_forall {α : Type} (ca pa : List (String × α))
    (fs : List Field) :
    (∀ f ∈ fs, (proxyGetattr ca pa f.name).isSome) →
    ∀ s, ∃ m, replacement_init_go ca pa fs s = Except.ok m := by
  induction fs with
  | nil => intro _ s; exact ⟨s, rfl⟩
  | cons f rest ih =>
    intro hall s
    have h1 := hall f (List.mem_cons_self _ _)
    cases hv : proxyGetattr ca pa f.name with
    | none => rw [hv] at h1; exact absurd h1 (by simp)
    | some v =>
      rcases ih (fun g hg => hall g (List.mem_cons_of_mem _ hg))
        (dictInsert s f.name v) with ⟨m, hm⟩
      refine ⟨m, ?_⟩
      rw [replacement_init_go_cons, hv]
      exact hm

theorem replacement_init_go_error_name {α : Type} (ca pa : List (String × α))
    (fs : List Field) :
    ∀ (s : List (String × α)) (e : InitError),
      replacement_init_go ca pa fs s = Except.error e →
      ∃ n, e = InitError.uninitializedField n ∧
        ∃ f ∈ fs, f.name = n ∧ proxyGetattr ca pa f.name = none := by
  induction fs with
  | nil => intro s e h; exact Except.noConfusion h
  | cons f rest ih =>
    intro s e h
    rw [replacement_init_go_cons] at h
    split at h
    · rename_i hv
      cases h
      exact ⟨f.name, rfl, f, List.mem_cons_self _ _, rfl, hv⟩
    · rename_i v hv
      rcases ih _ _ h with ⟨n, he, g, hg, hgn, hgv⟩
      exact ⟨n, he, g, List.mem_cons_of_mem _ hg, hgn, hgv⟩

theorem replacement_init_go_error_of_missing {α : Type} (ca pa : List (String × α))
    (fs : List Field) :
    ∀ (s : List (String × α)), (∃ f ∈ fs, proxyGetattr ca pa f.name = none) →
      ∃ n, replacement_init_go ca pa fs s =
          Except.error (InitError.uninitializedField n) ∧
        ∃ f ∈ fs, f.name = n ∧ proxyGetattr ca pa f.name = none := by
  induction fs with
  | nil => intro s h; rcases h with ⟨f, hf, _⟩; exact absurd hf (List.not_mem_nil _)
  | cons f rest ih =>
    intro s h
    cases hv : proxyGetattr ca pa f.name with
    | none =>
      refine ⟨f.name, ?_, f, List.mem_cons_self _ _, rfl, hv⟩
      rw [replacement_init_go_cons, hv]
    | some v =>
      rcases h with ⟨g, hg, hgv⟩
      rcases List.mem_cons.mp hg with h1 | h1
      · rw [h1] at hgv; rw [hgv] at hv; exact Option.noConfusion hv
      · rcases ih (dictInsert s f.name v) ⟨g, h1, hgv⟩ with ⟨n, hrun, hw⟩
        refine ⟨n, ?_, ?_⟩
        · rw [replacement_init_go_cons, hv]; exact hrun
        · rcases hw with ⟨g', hg', hrest⟩
          exact ⟨g', List.mem_cons_of_mem _ hg', hrest⟩

/-! ## Lemmas about registration and the instantiation guard -/

theorem is_pytree_dataclass_type_classObj (base : PyClass) (name : String)
    (d : ClassDict) :
    is_pytree_dataclass_type (PyClass.classObj base name d) = d.info.isSome := rfl

theorem guard_delegate_of_registered (c : PyClass)
    (h : is_pytree_dataclass_type c = true) :
    abstractStructMetaclass_call c = CallOutcome.delegateToInit (mroInit c) := by
  unfold abstractStructMetaclass_call
  rw [h]
  rfl

theorem guard_error_of_unregistered (c : PyClass)
    (h : is_pytree_dataclass_type c = false) :
    abstractStructMetaclass_call c = CallOutcome.abstractTypeError := by
  unfold abstractStructMetaclass_call
  rw [h]
  rfl

theorem mroInit_noOwn (base : PyClass) (name : String) (d : ClassDict)
    (h : d.initMethod = none) :
    mroInit (PyClass.classObj base name d) = mroInit base := by
  simp only [mroInit, h]

theorem mroInfo_noOwn (base : PyClass) (name : String) (d : ClassDict)
    (h : d.info = none) :
    mroInfo (PyClass.classObj base name d) = mroInfo base := by
  simp only [mroInfo, h]

theorem consultedGeneratedInit_noOwn (base : PyClass) (name : String) (d : ClassDict)
    (h : d.info = none) :
    consultedGeneratedInit (PyClass.classObj base name d) =
      consultedGeneratedInit base := by
  unfold consultedGeneratedInit
  rw [mroInfo_noOwn base name d h]

theorem pytree_dataclass_finish_ok (opts : RegOptions) (base : PyClass) (name : String)
    (d2 : ClassDict) (oi : Option InitImpl) (c : PyClass)
    (h : pytree_dataclass_finish opts base name d2 oi = Except.ok c) :
    ∃ d', c = PyClass.classObj base name d' ∧ d'.info = d2.info := by
  simp only [pytree_dataclass_finish] at h
  split at h
  · exact Except.noConfusion h
  · split at h
    · split at h
      · exact Except.noConfusion h
      · cases h
        exact ⟨_, rfl, rfl⟩
    · cases h
      exact ⟨d2, rfl, rfl⟩

theorem pytree_dataclass_finish_error (opts : RegOptions) (base : PyClass)
    (name : String) (d2 : ClassDict) (oi : Option InitImpl) (e : RegError)
    (c' : PyClass)
    (h : pytree_dataclass_finish opts base name d2 oi = Except.error (e, c')) :
    c' = PyClass.classObj base name d2 ∧
      (e = RegError.missingCodec ∨ e = RegError.proxyAttrAlreadyDefined) := by
  simp only [pytree_dataclass_finish] at h
  split at h
  · cases h
    exact ⟨rfl, Or.inl rfl⟩
  · split at h
    · split at h
      · cases h
        exact ⟨rfl, Or.inr rfl⟩
      · exact Except.noConfusion h
    · exact Except.noConfusion h

theorem pytree_dataclass_ok_char (opts : RegOptions) (base : PyClass) (name : String)
    (d : ClassDict) (c : PyClass)
    (h : pytree_dataclass opts base name d = Except.ok c) :
    ∃ d', c = PyClass.classObj base name d' ∧ d'.info.isSome = true := by
  simp only [pytree_dataclass] at h
  split at h
  · exact Except.noConfusion h
  · split at h
    · exact Except.noConfusion h
    · split at h
      · split at h
        · exact Except.noConfusion h
        · rcases pytree_dataclass_finish_ok _ _ _ _ _ _ h with ⟨d', h1, h2⟩
          refine ⟨d', h1, ?_⟩
          rw [h2]
          rfl
      · split at h
        · exact Except.noConfusion h
        · rcases pytree_dataclass_finish_ok _ _ _ _ _ _ h with ⟨d', h1, h2⟩
          refine ⟨d', h1, ?_⟩
          rw [h2]
          rfl

theorem pytree_dataclass_error_char (opts : RegOptions) (base : PyClass)
    (name : String) (d : ClassDict) (e : RegError) (c' : PyClass)
    (h : pytree_dataclass opts base name d = Except.error (e, c')) :
    ((e = RegError.alreadyRegistered ∨ e = RegError.unsafeInitOverwrite) →
        c' = PyClass.classObj base name d) ∧
      ((e ≠ RegError.alreadyRegistered ∧ e ≠ RegError.unsafeInitOverwrite) →
        is_pytree_dataclass_type c' = true) := by
  simp only [pytree_dataclass] at h
  split at h
  · cases h
    exact ⟨fun _ => rfl, fun hne => absurd rfl hne.1⟩
  · split at h
    · cases h
      exact ⟨fun _ => rfl, fun hne => absurd rfl hne.2⟩
    · split at h
      · split at h
        · cases h
          refine ⟨fun hor => ?_, fun _ => rfl⟩
          rcases hor with hh | hh <;> exact RegError.noConfusion hh
        · rcases pytree_dataclass_finish_error _ _ _ _ _ _ _ h with ⟨hc, he⟩
          subst hc
          refine ⟨fun hor => ?_, fun _ => rfl⟩
          rcases he with he | he <;> subst he <;>
            (rcases hor with hh | hh <;> exact RegError.noConfusion hh)
      · split at h
        · cases h
          refine ⟨fun hor => ?_, fun _ => rfl⟩
          rcases hor with hh | hh <;> exact RegError.noConfusion hh
        · rcases pytree_dataclass_finish_error _ _ _ _ _ _ _ h with ⟨hc, he⟩
          subst hc
          refine ⟨fun hor => ?_, fun _ => rfl⟩
          rcases he with he | he <;> subst he <;>
            (rcases hor with hh | hh <;> exact RegError.noConfusion hh)

theorem pytree_dataclass_already (opts : RegOptions) (base : PyClass) (name : String)
    (d : ClassDict) (h : d.info.isSome = true) :
    pytree_dataclass opts base name d =
      Except.error (RegError.alreadyRegistered, PyClass.classObj base name d) := by
  simp only [pytree_dataclass]
  rw [if_pos h]

theorem pytree_dataclass_not_already (opts : RegOptions) (base : PyClass)
    (name : String) (d : ClassDict) (e : RegError) (c' : PyClass)
    (hinfo : d.info = none)
    (h : pytree_dataclass opts base name d = Except.error (e, c')) :
    e ≠ RegError.alreadyRegistered := by
  simp only [pytree_dataclass] at h
  split at h
  · rename_i hcond
    rw [hinfo] at hcond
    exact absurd hcond (by simp)
  · split at h
    · cases h
      exact fun hh => RegError.noConfusion hh
    · split at h
      · split at h
        · cases h
          exact fun hh => RegError.noConfusion hh
        · rcases pytree_dataclass_finish_error _ _ _ _ _ _ _ h with ⟨_, he | he⟩ <;>
            (subst he; exact fun hh => RegError.noConfusion hh)
      · split at h
        · cases h
          exact fun hh => RegError.noConfusion hh
        · rcases pytree_dataclass_finish_error _ _ _ _ _ _ _ h with ⟨_, he | he⟩ <;>
            (subst he; exact fun hh => RegError.noConfusion hh)

theorem pytree_dataclass_unsafe_iff (opts : RegOptions) (base : PyClass)
    (name : String) (d : ClassDict) (hinit : opts.init = true)
    (hown : d.initMethod = none) (hov : opts.overwrite_parent_init = false)
    (hinfo : d.info = none) :
    (∃ c', pytree_dataclass opts base name d =
        Except.error (RegError.unsafeInitOverwrite, c')) ↔
      mroInit base ≠ consultedGeneratedInit base := by
  constructor
  · rintro ⟨c', hc⟩
    simp only [pytree_dataclass] at hc
    split at hc
    · rename_i hcond
      rw [hinfo] at hcond
      exact absurd hcond (by simp)
    · split at hc
      · rename_i hcond
        rw [mroInit_noOwn base name d hown,
          consultedGeneratedInit_noOwn base name d hinfo] at hcond
        exact hcond.2.2.2
      · exfalso
        split at hc
        · split at hc
          · cases hc
          · rcases pytree_dataclass_finish_error _ _ _ _ _ _ _ hc with ⟨_, he | he⟩ <;>
              exact RegError.noConfusion he
        · split at hc
          · cases hc
          · rcases pytree_dataclass_finish_error _ _ _ _ _ _ _ hc with ⟨_, he | he⟩ <;>
              exact RegError.noConfusion he
  · intro hne
    refine ⟨PyClass.classObj base name d, ?_⟩
    simp only [pytree_dataclass]
    have h1 : ¬ d.info.isSome = true := by
      rw [hinfo]
      simp
    rw [if_neg h1, if_pos ?_]
    rw [mroInit_noOwn base name d hown, consultedGeneratedInit_noOwn base name d hinfo]
    exact ⟨hinit, hown, hov, hne⟩

/-! ## Claim theorems -/

/-- C1: for every struct instance `x`, unflattening the metadata together
with the child values produced by `tree_flatten_with_keys x` (via
`tree_unflatten` on `x`'s class) yields an instance with the same declared
fields in which every declared field equals the corresponding field of
`x`. -/
theorem claim_C1_roundtrip {α : Type} (x : StructInst α)
    (cs : List (AttrKey × α)) (meta : StructStaticMetadata α)
    (hflat : x.tree_flatten_with_keys = some (cs, meta)) :
    ∃ y, StructInst.tree_unflatten x.fields x.keyfn meta (cs.map fun p => p.2) = some y ∧
      y.fields = x.fields ∧
      ∀ f ∈ x.fields, y.getattr f.name = x.getattr f.name := by
  have hgo : StructInst.tree_flatten_with_keys_go x x.fields [] [] [] = some (cs, meta) :=
    hflat
  have hzip := StructInst.tree_flatten_with_keys_go_zip x x.fields [] [] [] cs meta hgo
    rfl (by intro q hq; simp at hq)
  have hlen2 : (cs.map fun p => p.2).length = meta.child_field_names.length := by
    rw [List.length_map, hzip.1]
  rw [StructInst.tree_unflatten, if_pos hlen2]
  refine ⟨_, rfl, rfl, ?_⟩
  intro f hf
  have hzipv : ∀ q ∈ meta.child_field_names.zip (cs.map fun p => p.2),
      x.getattr q.1 = some q.2 := by
    intro q hq
    rw [List.zip_map_right] at hq
    rcases List.mem_map.mp hq with ⟨q', hq', hqq⟩
    have h3 := hzip.2 q' hq'
    rw [← hqq]
    exact h3
  have hstat := StructInst.tree_flatten_with_keys_go_statics x x.fields [] [] [] cs meta
    hgo (by intro p hp; simp at hp)
  have hvalsfinal : ∀ p ∈ (meta.child_field_names.zip (cs.map fun p => p.2)).foldl
      (fun m p => dictInsert m p.1 p.2) meta.static_fields,
      x.getattr p.1 = some p.2 := by
    intro p hp
    rcases mem_foldl_dictInsert _ _ _ hp with h1 | h1
    · exact hstat p h1
    · exact hzipv p h1
  have hcov := StructInst.tree_flatten_with_keys_go_cover x x.fields [] [] [] cs meta
    hgo f hf
  have hsome : (dictGet ((meta.child_field_names.zip (cs.map fun p => p.2)).foldl
      (fun m p => dictInsert m p.1 p.2) meta.static_fields) f.name).isSome := by
    by_cases hcb : is_pytree_node_field f
    · apply dictGet_foldl_isSome
      right
      have hmem := hcov.1 hcb
      have hfst : (meta.child_field_names.zip (cs.map fun p => p.2)).map
          (fun p => p.1) = meta.child_field_names := by
        exact List.map_fst_zip _ _ (by rw [List.length_map, hzip.1])
      rw [hfst]
      exact hmem
    · have hcb' : is_pytree_node_field f = false := by
        cases hb : is_pytree_node_field f
        · rfl
        · exact absurd hb hcb
      apply dictGet_foldl_isSome
      left
      exact hcov.2 hcb'
  rcases Option.isSome_iff_exists.mp hsome with ⟨w, hw⟩
  have hxw : x.getattr f.name = some w := hvalsfinal (f.name, w) (dictGet_mem hw)
  show dictGet ((meta.child_field_names.zip (cs.map fun p => p.2)).foldl
      (fun m p => dictInsert m p.1 p.2) meta.static_fields) f.name = x.getattr f.name
  rw [hw, hxw]

/-- C1 witness: the round-trip theorem applied to the concrete
`Tagged{value: child, tag: static}` instance. -/
theorem claim_C1_roundtrip_witness :
    ∃ y, StructInst.tree_unflatten taggedInst.fields taggedInst.keyfn
        ⟨[("value")], [(("tag"), 7)]⟩
        ([(AttrKey.getAttrKey ("value"), 1)].map fun p => p.2) = some y ∧
      y.fields = taggedInst.fields ∧
      ∀ f ∈ taggedInst.fields, y.getattr f.name = taggedInst.getattr f.name :=
  claim_C1_roundtrip taggedInst [(AttrKey.getAttrKey ("value"), 1)]
    ⟨[("value")], [(("tag"), 7)]⟩ (by decide)

/-- C2: flattening an instance produces metadata whose `child_field_names`
is the declared field list in declaration order restricted to child
fields; the children list has the same length and lists the corresponding
field values in that order; every static field appears exactly once in
`static_fields`, keyed by name (declared field names are distinct in a
dataclass, which is the `hnodup` hypothesis); and `tree_flatten` produces
the same metadata. -/
theorem claim_C2_flatten_metadata {α : Type} (x : StructInst α)
    (cs : List (AttrKey × α)) (meta : StructStaticMetadata α)
    (hflat : x.tree_flatten_with_keys = some (cs, meta))
    (hnodup : (x.fields.map fun f => f.name).Nodup) :
    meta.child_field_names =
        (x.fields.filter fun f => is_pytree_node_field f).map (fun f => f.name) ∧
      cs.length = meta.child_field_names.length ∧
      (∀ q ∈ meta.child_field_names.zip cs, x.getattr q.1 = some q.2.2) ∧
      meta.static_fields.map (fun p => p.1) =
        (x.fields.filter fun f => !is_pytree_node_field f).map (fun f => f.name) ∧
      (∀ p ∈ meta.static_fields, x.getattr p.1 = some p.2) ∧
      x.tree_flatten = some (cs.map fun p => p.2, meta) := by
  have hgo : StructInst.tree_flatten_with_keys_go x x.fields [] [] [] = some (cs, meta) :=
    hflat
  have hnames := StructInst.tree_flatten_with_keys_go_names x x.fields [] [] [] cs meta hgo
  have hzip := StructInst.tree_flatten_with_keys_go_zip x x.fields [] [] [] cs meta hgo
    rfl (by intro q hq; simp at hq)
  have hkeys := StructInst.tree_flatten_with_keys_go_static_keys x x.fields [] [] [] cs
    meta hgo (by intro g hg hgc; rfl) hnodup
  have hstat := StructInst.tree_flatten_with_keys_go_statics x x.fields [] [] [] cs meta
    hgo (by intro p hp; simp at hp)
  refine ⟨by simpa using hnames, hzip.1.symm, hzip.2, by simpa using hkeys, hstat, ?_⟩
  rw [StructInst.tree_flatten_eq_map_with_keys, hflat]
  rfl

/-- C2 witness: the field-order conclusion at the concrete `Tagged`
instance. -/
theorem claim_C2_flatten_metadata_witness :
    (⟨[("value")], [(("tag"), 7)]⟩ : StructStaticMetadata Nat).child_field_names =
      (taggedInst.fields.filter fun f => is_pytree_node_field f).map (fun f => f.name) :=
  (claim_C2_flatten_metadata taggedInst [(AttrKey.getAttrKey ("value"), 1)]
    ⟨[("value")], [(("tag"), 7)]⟩ (by decide) (by decide)).1

/-- C3: the instantiation guard rejects (with the abstract-type error) any
class whose own dict has no registration info — even a subclass of a
registered class — and lets through any class produced by a successful
`pytree_dataclass` registration, and any mutable-init-proxy class
(delegating to the resolved `__init__` in both cases). -/
theorem claim_C3_instantiation_guard :
    (∀ (base : PyClass) (name : String) (d : ClassDict), d.info = none →
        abstractStructMetaclass_call (PyClass.classObj base name d) =
          CallOutcome.abstractTypeError) ∧
      (∀ (opts : RegOptions) (base : PyClass) (name : String) (d : ClassDict)
          (c : PyClass),
        pytree_dataclass opts base name d = Except.ok c →
        abstractStructMetaclass_call c = CallOutcome.delegateToInit (mroInit c)) ∧
      (∀ (cls : PyClass) (clsName : String) (oi : InitImpl),
        abstractStructMetaclass_call (mkMutableInitProxy cls clsName oi) =
          CallOutcome.delegateToInit oi) := by
  refine ⟨?_, ?_, ?_⟩
  · intro base name d h
    apply guard_error_of_unregistered
    rw [is_pytree_dataclass_type_classObj, h]
    rfl
  · intro opts base name d c h
    rcases pytree_dataclass_ok_char opts base name d c h with ⟨d', h1, h2⟩
    apply guard_delegate_of_registered
    rw [h1, is_pytree_dataclass_type_classObj]
    exact h2
  · intro cls clsName oi
    rfl

/-- C3 witness: an unregistered subclass of the registered `exG` is
rejected; `exG` itself and a proxy class pass the guard. -/
theorem claim_C3_instantiation_guard_witness :
    abstractStructMetaclass_call (PyClass.classObj exG ("Sub") emptyDict) =
        CallOutcome.abstractTypeError ∧
      abstractStructMetaclass_call exG = CallOutcome.delegateToInit (mroInit exG) ∧
      abstractStructMetaclass_call (mkMutableInitProxy exG ("G") (InitImpl.userInit 0)) =
        CallOutcome.delegateToInit (InitImpl.userInit 0) :=
  ⟨claim_C3_instantiation_guard.1 exG ("Sub") emptyDict rfl,
    claim_C3_instantiation_guard.2.1 {} structBase ("G") gDict exG (by decide),
    claim_C3_instantiation_guard.2.2 exG ("G") (InitImpl.userInit 0)⟩

/-- C4 counterexample: the claim's "if and only if" fails.  `G` is
registered normally (recording its generated `__init__`), `P` subclasses
`G` with `init=False` (recording no generated `__init__`), and `C`
subclasses `P` with default options and no own `__init__`.  `C`'s
inherited `__init__` is exactly the one a previous `pytree_dataclass`
registration of its parent class `G` generated, yet registration of `C`
fails with the unsafe-init-overwrite error, because the code consults only
the registration record of the *nearest* registered ancestor (`P`), whose
recorded generated init is `None`. -/
theorem claim_C4_counterexample :
    pytree_dataclass {} structBase ("G") gDict = Except.ok exG ∧
      pytree_dataclass { init := false, has_implicitly_inherited_fields := true } exG
          ("P") emptyDict = Except.ok exP ∧
      mroInit exP = InitImpl.generatedInit ("G") ∧
      InitImpl.generatedInit ("G") ∈ ancestorRecordedInits exP ∧
      pytree_dataclass {} exP ("C") emptyDict =
        Except.error (RegError.unsafeInitOverwrite, PyClass.classObj exP ("C") emptyDict) := by
  decide

/-- C4 (amended): with `init` requested, no own `__init__`, and
`overwrite_parent_init=False`, registration fails with the
unsafe-init-overwrite error if and only if the `__init__` inherited from
the parent differs from the initializer the *nearest* registered class in
the parent's MRO recorded as generated (taking `object.__init__` when that
record is `None` or when no ancestor is registered) — not, as the claim
stated, whenever it differs from every initializer generated by previous
registrations of parent classes. -/
theorem claim_C4_amended (opts : RegOptions) (base : PyClass) (name : String)
    (d : ClassDict) (hinit : opts.init = true) (hown : d.initMethod = none)
    (hov : opts.overwrite_parent_init = false) (hinfo : d.info = none) :
    (∃ c', pytree_dataclass opts base name d =
        Except.error (RegError.unsafeInitOverwrite, c')) ↔
      mroInit base ≠ consultedGeneratedInit base :=
  pytree_dataclass_unsafe_iff opts base name d hinit hown hov hinfo

/-- C4 witness: the amended criterion applied to the concrete class `C`
over `P`. -/
theorem claim_C4_amended_witness :
    ∃ c', pytree_dataclass {} exP ("C") emptyDict =
      Except.error (RegError.unsafeInitOverwrite, c') :=
  (claim_C4_amended {} exP ("C") emptyDict rfl rfl rfl rfl).mpr (by decide)

/-- C5: applying `pytree_dataclass` to a class whose own dict already holds
the registration info fails with the already-registered `ValueError`
(leaving the class unchanged), while a class whose own dict has no info —
regardless of its base, in particular a subclass of a registered class —
never fails with that error. -/
theorem claim_C5_exact_type_registration :
    (∀ (opts : RegOptions) (base : PyClass) (name : String) (d : ClassDict),
        d.info.isSome = true →
        pytree_dataclass opts base name d =
          Except.error (RegError.alreadyRegistered, PyClass.classObj base name d)) ∧
      (∀ (opts : RegOptions) (base : PyClass) (name : String) (d : ClassDict)
          (e : RegError) (c' : PyClass), d.info = none →
        pytree_dataclass opts base name d = Except.error (e, c') →
        e ≠ RegError.alreadyRegistered) :=
  ⟨pytree_dataclass_already,
    fun opts base name d e c' h1 h2 =>
      pytree_dataclass_not_already opts base name d e c' h1 h2⟩

/-- C5 witness: re-registering the registered `exG` fails with the
already-registered error; registering the (merely inheriting) subclass `B`
fails, but not with that error. -/
theorem claim_C5_exact_type_registration_witness :
    pytree_dataclass {} structBase ("G") (dictOf exG) =
        Except.error (RegError.alreadyRegistered,
          PyClass.classObj structBase ("G") (dictOf exG)) ∧
      RegError.fieldOrderMismatch ([("b")]) ([("a"), ("b")]) ≠
        RegError.alreadyRegistered :=
  ⟨claim_C5_exact_type_registration.1 {} structBase ("G") (dictOf exG) (by decide),
    claim_C5_exact_type_registration.2 {} exG ("B") bDict
      (RegError.fieldOrderMismatch ([("b")]) ([("a"), ("b")])) exBfail rfl (by decide)⟩

/-- C6 counterexample: the claim fails for a field with a class-level
default.  With one declared field `x` whose dataclass default `3` is
visible as a class attribute, a user `__init__` that assigns nothing
(empty proxy dict) leaves `x` "never assigned during the user's
initializer", yet construction succeeds (taking the default) instead of
failing with the uninitialized-field error. -/
theorem claim_C6_counterexample :
    (∃ f ∈ ([⟨("x"), []⟩] : List Field),
        dictGet ([] : List (String × Nat)) f.name = none) ∧
      replacement_init [⟨("x"), []⟩] [(("x"), (3 : Nat))] [] [] =
        Except.ok [(("x"), 3)] := by
  decide

/-- C6 (amended): construction through the proxy path fails with the
uninitialized-field error naming an unassigned declared field exactly when
some declared field is set neither on the proxy instance nor as a
class-level attribute (such as a dataclass field default); otherwise every
declared field of the resulting instance equals `getattr(proxy, name)` —
the value the initializer assigned when it assigned one, else the
class-level default. -/
theorem claim_C6_amended {α : Type} (clsFields : List Field)
    (ca pa s : List (String × α)) :
    ((∃ f ∈ clsFields, proxyGetattr ca pa f.name = none) →
        ∃ n, replacement_init clsFields ca pa s =
            Except.error (InitError.uninitializedField n) ∧
          ∃ f ∈ clsFields, f.name = n ∧ proxyGetattr ca pa f.name = none) ∧
      ((∀ f ∈ clsFields, (proxyGetattr ca pa f.name).isSome) →
        ∃ m, replacement_init clsFields ca pa s = Except.ok m ∧
          ∀ f ∈ clsFields, dictGet m f.name = proxyGetattr ca pa f.name) := by
  constructor
  · intro hmiss
    exact replacement_init_go_error_of_missing ca pa clsFields s hmiss
  · intro hall
    rcases replacement_init_go_ok_of_forall ca pa clsFields hall s with ⟨m, hm⟩
    refine ⟨m, hm, ?_⟩
    intro f hf
    rw [replacement_init_go_ok_char ca pa clsFields s m hm f.name,
      if_pos (List.mem_map_of_mem _ hf)]

/-- C6 witness: with no class defaults, an initializer that assigns nothing
fails naming `x`; one that assigns `y` succeeds with that value. -/
theorem claim_C6_amended_witness :
    (∃ n, replacement_init [⟨("x"), []⟩] ([] : List (String × Nat)) [] [] =
        Except.error (InitError.uninitializedField n) ∧
      ∃ f ∈ ([⟨("x"), []⟩] : List Field), f.name = n ∧
        proxyGetattr ([] : List (String × Nat)) [] f.name = none) ∧
      (∃ m, replacement_init [⟨("y"), []⟩] ([] : List (String × Nat))
          [(("y"), 2)] [] = Except.ok m ∧
        ∀ f ∈ ([⟨("y"), []⟩] : List Field),
          dictGet m f.name = proxyGetattr ([] : List (String × Nat)) [(("y"), 2)] f.name) :=
  ⟨(claim_C6_amended [⟨("x"), []⟩] [] [] []).1 (by decide),
    (claim_C6_amended [⟨("y"), []⟩] [] [(("y"), 2)] []).2 (by decide)⟩

/-- C7: the field classifier is a pure function of the field declaration:
it returns child (`true`) when the metadata has no `"pytree_node"` entry,
and returns static (`false`) exactly when the metadata explicitly maps
`"pytree_node"` to `False`; and both flatten operations route every field
by exactly this classification (children into `child_field_names`,
statics into `static_fields`).  The registrar performs no field
classification of its own, so no disagreement is possible. -/
theorem claim_C7_field_classifier :
    (∀ f : Field, dictGet f.metadata ("pytree_node") = none →
        is_pytree_node_field f = true) ∧
      (∀ f : Field, is_pytree_node_field f = false ↔
        dictGet f.metadata ("pytree_node") = some false) ∧
      (∀ (α : Type) (x : StructInst α) (cs : List (AttrKey × α))
          (meta : StructStaticMetadata α),
        x.tree_flatten_with_keys = some (cs, meta) →
        ∀ f ∈ x.fields,
          (is_pytree_node_field f = true → f.name ∈ meta.child_field_names) ∧
            (is_pytree_node_field f = false →
              (dictGet meta.static_fields f.name).isSome)) ∧
      (∀ (α : Type) (x : StructInst α) (csv : List α)
          (meta : StructStaticMetadata α),
        x.tree_flatten = some (csv, meta) →
        ∀ f ∈ x.fields,
          (is_pytree_node_field f = true → f.name ∈ meta.child_field_names) ∧
            (is_pytree_node_field f = false →
              (dictGet meta.static_fields f.name).isSome)) := by
  refine ⟨?_, ?_, ?_, ?_⟩
  · intro f h
    unfold is_pytree_node_field metadataGet
    rw [h]
  · intro f
    unfold is_pytree_node_field metadataGet
    cases hd : dictGet f.metadata ("pytree_node") with
    | none => simp
    | some b => cases b <;> simp
  · intro α x cs meta h f hf
    exact StructInst.tree_flatten_with_keys_go_cover x x.fields [] [] [] cs meta h f hf
  · intro α x csv meta h f hf
    rw [StructInst.tree_flatten_eq_map_with_keys] at h
    rcases Option.map_eq_some'.mp h with ⟨⟨cs, meta'⟩, h1, h2⟩
    cases Prod.mk.injEq .. ▸ h2
    have h3 : meta' = meta := congrArg Prod.snd h2
    rw [← h3]
    exact StructInst.tree_flatten_with_keys_go_cover x x.fields [] [] [] cs meta' h1 f hf

/-- C7 witness: the classifier and flatten routing at the concrete `Tagged`
fields. -/
theorem claim_C7_field_classifier_witness :
    is_pytree_node_field ⟨("value"), []⟩ = true ∧
      (is_pytree_node_field ⟨("tag"), [(("pytree_node"), false)]⟩ = false ↔
        dictGet ([(("pytree_node"), false)] : List (String × Bool)) ("pytree_node") =
          some false) ∧
      ((is_pytree_node_field (⟨("tag"), [(("pytree_node"), false)]⟩ : Field) = true →
          ("tag") ∈ (⟨[("value")], [(("tag"), 7)]⟩ :
            StructStaticMetadata Nat).child_field_names) ∧
        (is_pytree_node_field (⟨("tag"), [(("pytree_node"), false)]⟩ : Field) = false →
          (dictGet (⟨[("value")], [(("tag"), 7)]⟩ :
            StructStaticMetadata Nat).static_fields ("tag")).isSome)) :=
  ⟨claim_C7_field_classifier.1 ⟨("value"), []⟩ rfl,
    claim_C7_field_classifier.2.1 ⟨("tag"), [(("pytree_node"), false)]⟩,
    claim_C7_field_classifier.2.2.1 Nat taggedInst [(AttrKey.getAttrKey ("value"), 1)]
      ⟨[("value")], [(("tag"), 7)]⟩ (by decide) ⟨("tag"), [(("pytree_node"), false)]⟩
      (by decide)⟩

/-- C8 counterexample: the claim's "no partial registration takes effect"
fails.  Registering the subclass `B` of the registered `exG` (adding a
field without re-listing the inherited one) aborts with the field-order
mismatch error, but the class state carried by the error already holds the
registration info attribute, so the failed type passes the instantiation
guard as if it were registered. -/
theorem claim_C8_counterexample :
    (regResultError (pytree_dataclass {} exG ("B") bDict)).map
        (fun ec => (ec.1, abstractStructMetaclass_call ec.2)) =
      some (RegError.fieldOrderMismatch ([("b")]) ([("a"), ("b")]),
        CallOutcome.delegateToInit (InitImpl.generatedInit ("B"))) := by
  decide

/-- C8 (amended): every failed safety check raises immediately and aborts
registration, but the mutation already performed stays: failures of the
already-registered and unsafe-init-overwrite checks leave the class object
untouched, while any later failure (redundant opt-in, field-order
mismatch, missing codec, proxy attribute collision) happens after the
registration info attribute was installed, so the failed type then passes
the instantiation guard as if registered. -/
theorem claim_C8_amended (opts : RegOptions) (base : PyClass) (name : String)
    (d : ClassDict) (e : RegError) (c' : PyClass)
    (h : pytree_dataclass opts base name d = Except.error (e, c')) :
    ((e = RegError.alreadyRegistered ∨ e = RegError.unsafeInitOverwrite) →
        c' = PyClass.classObj base name d) ∧
      ((e ≠ RegError.alreadyRegistered ∧ e ≠ RegError.unsafeInitOverwrite) →
        is_pytree_dataclass_type c' = true ∧
          abstractStructMetaclass_call c' = CallOutcome.delegateToInit (mroInit c')) := by
  have h2 := pytree_dataclass_error_char opts base name d e c' h
  exact ⟨h2.1, fun hne => ⟨h2.2 hne, guard_delegate_of_registered c' (h2.2 hne)⟩⟩

/-- C8 witness: the amended statement at the failed registration of `B`. -/
theorem claim_C8_amended_witness :
    is_pytree_dataclass_type exBfail = true ∧
      abstractStructMetaclass_call exBfail =
        CallOutcome.delegateToInit (mroInit exBfail) :=
  (claim_C8_amended {} exG ("B") bDict
      (RegError.fieldOrderMismatch ([("b")]) ([("a"), ("b")])) exBfail (by decide)).2
    ⟨by decide, by decide⟩

/-- C9: `tree_flatten` returns exactly the metadata of
`tree_flatten_with_keys` and the value components of its `(key, value)`
children, in the same order (and fails exactly when it fails). -/
theorem claim_C9_flatten_refines_with_keys {α : Type} (x : StructInst α) :
    x.tree_flatten =
      x.tree_flatten_with_keys.map (fun r => (r.1.map fun p => p.2, r.2)) :=
  StructInst.tree_flatten_eq_map_with_keys x

/-- C10: the wrapped initializer copies only the declared dataclass fields
from the proxy onto the real instance: every key outside the declared
field names is untouched (it keeps its prior value in the instance dict),
and in a real construction (which starts from an empty instance dict) any
attribute the user's initializer set on the proxy that is not a declared
field is absent from the result. -/
theorem claim_C10_frame {α : Type} (clsFields : List Field)
    (ca pa s m : List (String × α))
    (h : replacement_init clsFields ca pa s = Except.ok m) :
    (∀ k, k ∉ clsFields.map (fun f => f.name) → dictGet m k = dictGet s k) ∧
      (s = [] → ∀ k, k ∉ clsFields.map (fun f => f.name) → dictGet m k = none) := by
  have hchar := replacement_init_go_ok_char ca pa clsFields s m h
  constructor
  · intro k hk
    rw [hchar k, if_neg hk]
  · intro hs k hk
    rw [hchar k, if_neg hk, hs]
    rfl

/-- C10 witness: an initializer that sets the declared field `x` and a
stray attribute `junk` on the proxy produces an instance dict where `junk`
is absent. -/
theorem claim_C10_frame_witness :
    dictGet [(("x"), (1 : Nat))] ("junk") = none :=
  (claim_C10_frame [⟨("x"), []⟩] [] [(("x"), 1), (("junk"), 9)] [] [(("x"), 1)]
      (by decide)).2 rfl ("junk") (by decide)

end PenzaiStruct
